import Mathlib

/-!
# OAuth-Server: shallow embedding and verification

A shallow embedding of the core of the `OAuth-Server` Go repository — the
authorization-code exchange state machine (`AuthUseCase`), the PKCE check
(`validatePKCE`), the encrypted token service (`JWETokenService`), the
account subsystem (`AccountUseCase`, `InMemoryAccountRepository`,
`BcryptPasswordHasher`) and the HTTP handlers (`AuthHandler`) — together
with theorems settling the specification claims about them.

Conventions used throughout:

* Go byte slices are `List Nat` with every element `< 256`; Go strings are
  Lean `String`s, converted to bytes by an explicit UTF-8 encoder
  (`utf8Bytes`), matching Go's `[]byte(s)`.
* Go `time.Time` values are modelled as `Int` Unix seconds (the code only
  compares instants and adds whole-second durations, and tokens serialize
  timestamps through `Unix()`).
* Fallible Go code returns `Except String α`, carrying the source's error
  message; `nil`-able lookups return `Option`.
* External libraries that the repository calls (`crypto/sha256`,
  `encoding/base64`, `golang.org/x/crypto/bcrypt`, `go-jose`) are not part
  of the repository; `sha256` and base64 are embedded concretely from their
  published specifications (FIPS 180-4, RFC 4648) because the PKCE claims
  depend on their exact values, while bcrypt and the JWE envelope are
  abstracted by their documented contracts, as noted at their definitions.
-/

namespace OAuthServer

/-! ## Bytes and UTF-8

Go's `[]byte(s)` yields the UTF-8 encoding of the string.  We encode each
scalar value by the standard 1–4 byte schema. -/

/-- UTF-8 encoding of one Unicode scalar value, as byte values `< 256`. -/
def utf8Char (c : Char) : List Nat :=
  let n := c.toNat
  if n < 128 then [n]
  else if n < 2048 then [192 + n / 64, 128 + n % 64]
  else if n < 65536 then [224 + n / 4096, 128 + (n / 64) % 64, 128 + n % 64]
  else [240 + n / 262144, 128 + (n / 4096) % 64, 128 + (n / 64) % 64, 128 + n % 64]

/-- Go's `[]byte(s)`: the UTF-8 bytes of a string. -/
def utf8Bytes (s : String) : List Nat :=
  (s.data.map utf8Char).flatten

/-! ## SHA-256

A concrete, executable model of Go's `crypto/sha256` (an external library,
embedded from FIPS 180-4).  Words are `Nat`s kept below `2^32`; rotation and
shift are arithmetic on `Nat`, truncation is `% 2^32`.  Known test vectors
are checked below (`sha256_vector_abc`, `sha256_vector_rfc7636`). -/

/-- Truncate to a 32-bit word. -/
def w32 (n : Nat) : Nat := n % 4294967296

/-- Right rotation of a 32-bit word. -/
def rotr (n x : Nat) : Nat := x / 2 ^ n + x % 2 ^ n * 2 ^ (32 - n)

/-- Bitwise complement of a 32-bit word. -/
def bnot32 (x : Nat) : Nat := 4294967295 - x

/-- The SHA-256 round constants. -/
def sha256K : List Nat :=
  [1116352408, 1899447441, 3049323471, 3921009573, 961987163, 1508970993,
   2453635748, 2870763221, 3624381080, 310598401, 607225278, 1426881987,
   1925078388, 2162078206, 2614888103, 3248222580, 3835390401, 4022224774,
   264347078, 604807628, 770255983, 1249150122, 1555081692, 1996064986,
   2554220882, 2821834349, 2952996808, 3210313671, 3336571891, 3584528711,
   113926993, 338241895, 666307205, 773529912, 1294757372, 1396182291,
   1695183700, 1986661051, 2177026350, 2456956037, 2730485921, 2820302411,
   3259730800, 3345764771, 3516065817, 3600352804, 4094571909, 275423344,
   430227734, 506948616, 659060556, 883997877, 958139571, 1322822218,
   1537002063, 1747873779, 1955562222, 2024104815, 2227730452, 2361852424,
   2428436474, 2756734187, 3204031479, 3329325298]

/-- The SHA-256 initial hash value. -/
def sha256H0 : List Nat :=
  [1779033703, 3144134277, 1013904242, 2773480762,
   1359893119, 2600822924, 528734635, 1541459225]

/-- A 64-bit length, big-endian, as 8 bytes. -/
def be64 (n : Nat) : List Nat :=
  [n / 2 ^ 56 % 256, n / 2 ^ 48 % 256, n / 2 ^ 40 % 256, n / 2 ^ 32 % 256,
   n / 2 ^ 24 % 256, n / 2 ^ 16 % 256, n / 2 ^ 8 % 256, n % 256]

/-- SHA-256 padding: append `0x80`, zeros to 56 mod 64, then the bit length. -/
def sha256Pad (msg : List Nat) : List Nat :=
  let padLen := (119 - msg.length % 64) % 64
  msg ++ [128] ++ List.replicate padLen 0 ++ be64 (8 * msg.length)

/-- Big-endian bytes to 32-bit words (`acc` and `k` track a partial word). -/
def toWordsAux : List Nat → Nat → Nat → List Nat
  | [], _, _ => []
  | b :: rest, acc, k =>
    if k = 3 then (acc * 256 + b) :: toWordsAux rest 0 0
    else toWordsAux rest (acc * 256 + b) (k + 1)

/-- Big-endian bytes to 32-bit words. -/
def toWords (bs : List Nat) : List Nat := toWordsAux bs 0 0

/-- The next word of the message schedule, from the words produced so far. -/
def schedWord (w : Array Nat) (i : Nat) : Nat :=
  let x15 := w.getD (i - 15) 0
  let x2 := w.getD (i - 2) 0
  let s0 := Nat.xor (Nat.xor (rotr 7 x15) (rotr 18 x15)) (x15 / 2 ^ 3)
  let s1 := Nat.xor (Nat.xor (rotr 17 x2) (rotr 19 x2)) (x2 / 2 ^ 10)
  w32 (w.getD (i - 16) 0 + s0 + w.getD (i - 7) 0 + s1)

/-- Extend the message schedule by `fuel` further words, starting at index `i`. -/
def schedFrom : Nat → Nat → Array Nat → Array Nat
  | 0, _, w => w
  | fuel + 1, i, w => schedFrom fuel (i + 1) (w.push (schedWord w i))

/-- One round of the SHA-256 compression function. -/
def sha256Round (k wt : Nat) : List Nat → List Nat
  | [a, b, c, d, e, f, g, h] =>
    let s1 := Nat.xor (Nat.xor (rotr 6 e) (rotr 11 e)) (rotr 25 e)
    let ch := Nat.xor (Nat.land e f) (Nat.land (bnot32 e) g)
    let t1 := w32 (h + s1 + ch + k + wt)
    let s0 := Nat.xor (Nat.xor (rotr 2 a) (rotr 13 a)) (rotr 22 a)
    let mj := Nat.xor (Nat.xor (Nat.land a b) (Nat.land a c)) (Nat.land b c)
    let t2 := w32 (s0 + mj)
    [w32 (t1 + t2), a, b, c, w32 (d + t1), e, f, g]
  | st => st

/-- The 64 compression rounds, driven by the paired constants and schedule. -/
def sha256Rounds : List (Nat × Nat) → List Nat → List Nat
  | [], st => st
  | (k, wt) :: rest, st => sha256Rounds rest (sha256Round k wt st)

/-- Compress one 16-word block into the running hash value. -/
def sha256Block (block : List Nat) (hs : List Nat) : List Nat :=
  let w := schedFrom 48 16 (List.toArray block)
  let st := sha256Rounds (sha256K.zip w.toList) hs
  (hs.zip st).map fun p => w32 (p.1 + p.2)

/-- Process `fuel` 16-word blocks of `ws`. -/
def sha256Blocks : Nat → List Nat → List Nat → List Nat
  | 0, _, hs => hs
  | fuel + 1, ws, hs => sha256Blocks fuel (ws.drop 16) (sha256Block (ws.take 16) hs)

/-- A 32-bit word as 4 big-endian bytes. -/
def wordBytes (n : Nat) : List Nat :=
  [n / 2 ^ 24 % 256, n / 2 ^ 16 % 256, n / 2 ^ 8 % 256, n % 256]

/-- SHA-256 of a byte string (Go's `sha256.Sum256`). -/
def sha256 (msg : List Nat) : List Nat :=
  let ws := toWords (sha256Pad msg)
  ((sha256Blocks (ws.length / 16) ws sha256H0).map wordBytes).flatten

/-! ## Base64

Go's `encoding/base64` URL-safe alphabet, in the two variants the repository
uses: `base64.URLEncoding.WithPadding(base64.NoPadding)` (PKCE challenges)
— the padded variant is only used to render fresh random codes and never
re-parsed, so it is not needed here. -/

/-- The URL-safe base64 alphabet (RFC 4648 §5). -/
def b64Alphabet : List Char :=
  "ABCDEFGHIJKLMNOPQRSTUVWXYZabcdefghijklmnopqrstuvwxyz0123456789-_".data

/-- The base64 digit for a 6-bit value. -/
def b64Digit (n : Nat) : Char := b64Alphabet.getD n 'A'

/-- Unpadded base64 encoding of a byte string, three bytes at a time. -/
def b64Aux : List Nat → List Char
  | [] => []
  | [b0] => [b64Digit (b0 / 4), b64Digit (b0 % 4 * 16)]
  | [b0, b1] => [b64Digit (b0 / 4), b64Digit (b0 % 4 * 16 + b1 / 16), b64Digit (b1 % 16 * 4)]
  | b0 :: b1 :: b2 :: rest =>
    b64Digit (b0 / 4) :: b64Digit (b0 % 4 * 16 + b1 / 16) ::
    b64Digit (b1 % 16 * 4 + b2 / 64) :: b64Digit (b2 % 64) :: b64Aux rest

/-- Go's `base64.URLEncoding.WithPadding(base64.NoPadding).EncodeToString`. -/
def b64UrlNoPad (bs : List Nat) : String := String.mk (b64Aux bs)

/-! ## PKCE (`AuthUseCase.validatePKCE`) -/

/-- Model of `AuthUseCase.validatePKCE`: S256-only PKCE check.  Mirrors the source:
reject any method other than `"S256"`, otherwise compare the URL-safe
unpadded base64 of SHA-256 of the verifier bytes against the challenge. -/
def validatePKCE (codeChallenge codeVerifier method : String) : Bool :=
  if method ≠ "S256" then false
  else b64UrlNoPad (sha256 (utf8Bytes codeVerifier)) == codeChallenge

/-! ## Encrypted token service (`JWETokenService`) -/

/-- Token claims (`auth.Claims`); timestamps are Unix seconds. -/
structure Claims where
  Subject : String
  Issuer : String
  Audience : List String
  ExpiresAt : Int
  IssuedAt : Int
  NotBefore : Int
  Email : String
  Name : String
  Scope : String
deriving Repr, DecidableEq

/-- The decrypted, signature-verified payload of a compact JWE token.
`JWETokenService.createEncryptedToken` JSON-marshals exactly the claim keys
below, HMAC-signs the JSON, and encrypts the signed JWT; `ValidateToken`
parses, decrypts and verifies with the same derived keys.  The go-jose
sign/encrypt round trip (an external library) is modelled by its documented
contract — under the service's own keys, decrypt-then-verify recovers
exactly the signed claim set — so a token is represented by that claim set.
`scope` is an `Option` because `createEncryptedToken` omits the `"scope"`
key when `claims.Scope` is empty. -/
structure RawToken where
  email : String
  name : String
  exp : Int
  iat : Int
  nbf : Int
  sub : String
  iss : String
  aud : List String
  scope : Option String
deriving Repr, DecidableEq

/-- Model of `JWETokenService.createEncryptedToken`: the claim map that gets signed
and encrypted (timestamps through `Unix()`, `"scope"` only when non-empty). -/
def createEncryptedToken (claims : Claims) : RawToken :=
  { email := claims.Email, name := claims.Name, exp := claims.ExpiresAt,
    iat := claims.IssuedAt, nbf := claims.NotBefore, sub := claims.Subject,
    iss := claims.Issuer, aud := claims.Audience,
    scope := if claims.Scope ≠ "" then some claims.Scope else none }

/-- Model of `auth.TokenPair`: the token-endpoint response payload. -/
structure TokenPair where
  AccessToken : RawToken
  RefreshToken : RawToken
  TokenType : String
  ExpiresIn : Int
  Scope : String
deriving Repr, DecidableEq

/-- Model of `JWETokenService.GenerateTokenPair`: mint an access token
(`exp = now + 24h`, scope `"openid profile email"`) and a refresh token
(`exp = now + 7·24h`, empty scope).  The service's `issuer` and `audience`
fields are passed explicitly. -/
def GenerateTokenPair (issuer : String) (audience : List String) (now : Int)
    (userID email name : String) : TokenPair :=
  let accessClaims : Claims :=
    { Subject := userID, Issuer := issuer, Audience := audience,
      ExpiresAt := now + 24 * 3600, IssuedAt := now, NotBefore := now,
      Email := email, Name := name, Scope := "openid profile email" }
  let refreshClaims : Claims :=
    { Subject := userID, Issuer := issuer, Audience := audience,
      ExpiresAt := now + 7 * 24 * 3600, IssuedAt := now, NotBefore := now,
      Email := email, Name := name, Scope := "" }
  { AccessToken := createEncryptedToken accessClaims,
    RefreshToken := createEncryptedToken refreshClaims,
    TokenType := "Bearer", ExpiresIn := 86400, Scope := "openid profile email" }

/-- Model of `JWETokenService.ValidateToken` on a well-formed token of this service:
re-read every claim from the raw map (a missing `"scope"` leaves the field
empty, exactly as the `if ok` type assertions do), then reject expired
(`now > exp`) and not-yet-valid (`now < nbf`) tokens. -/
def ValidateToken (now : Int) (tok : RawToken) : Except String Claims :=
  let claims : Claims :=
    { Subject := tok.sub, Issuer := tok.iss, Audience := tok.aud,
      ExpiresAt := tok.exp, IssuedAt := tok.iat, NotBefore := tok.nbf,
      Email := tok.email, Name := tok.name, Scope := tok.scope.getD "" }
  if now > claims.ExpiresAt then .error "token has expired"
  else if now < claims.NotBefore then .error "token not yet valid"
  else .ok claims

/-- The outcome of `NewJWETokenService`: the Go constructor has no error
return at all — it either produces the two 32-byte keys or panics inside
`[]byte(secretKey+"_enc")[:32]` when the suffixed secret is shorter than 32
bytes (a slice-bounds-out-of-range runtime panic). -/
inductive ServiceInit where
  | panicked (msg : String)
  | ok (sigKey encKey : List Nat)
deriving Repr, DecidableEq

/-- Model of the `NewJWETokenService` key derivation: `encKey` is the first 32 bytes of
`secretKey + "_enc"`, `sigKey` the first 32 bytes of `secretKey + "_sig"`;
the slice expression `[:32]` panics when its source is shorter than 32
bytes (the `enc` slice is evaluated first in the source). -/
def NewJWETokenService (secretKey : String) : ServiceInit :=
  let encSrc := utf8Bytes (secretKey ++ "_enc")
  let sigSrc := utf8Bytes (secretKey ++ "_sig")
  if encSrc.length < 32 then .panicked "slice bounds out of range"
  else if sigSrc.length < 32 then .panicked "slice bounds out of range"
  else .ok (sigSrc.take 32) (encSrc.take 32)

/-! ## Authorization-code registry and exchange (`AuthUseCase`) -/

/-- Model of `auth.AuthorizationCode`: one registry record. -/
structure AuthorizationCode where
  Code : String
  ClientID : String
  RedirectURI : String
  Scope : String
  AccountID : String
  CodeChallenge : String
  CodeChallengeMethod : String
  ExpiresAt : Int
  Used : Bool
deriving Repr, DecidableEq

/-- The `authorizationCodes` map, as an association list keyed by the code
value (Go maps hold at most one entry per key; operations below also behave
uniformly on duplicate keys, acting on every entry of the key). -/
abbrev CodeState := List (String × AuthorizationCode)

/-- Map lookup `uc.authorizationCodes[code]`. -/
def lookupCode (s : CodeState) (code : String) : Option AuthorizationCode :=
  (List.find? (fun p => p.1 == code) s).map Prod.snd

/-- The in-place mutation `authCode.Used = true` (the map stores pointers). -/
def setUsed (s : CodeState) (code : String) : CodeState :=
  s.map fun p => if p.1 == code then (p.1, { p.2 with Used := true }) else p

/-- Map removal `delete(uc.authorizationCodes, code)`. -/
def deleteCode (s : CodeState) (code : String) : CodeState :=
  s.filter fun p => p.1 != code

/-- Model of `account.Account`: the account domain entity. -/
structure Account where
  ID : String
  Email : String
  Password : String
  Name : String
  Nickname : String
  Picture : String
  CreatedAt : Int
  UpdatedAt : Int
  Verified : Bool
  Blocked : Bool
deriving Repr, DecidableEq

/-- Model of `AuthUseCase.ExchangeCodeForTokens`, with the injected collaborators as
function parameters: `getAccount` is `accountUseCase.GetAccount` and `mint`
is `tokenService.GenerateTokenPair` (each may fail arbitrarily).  Returns
the updated registry together with the result.  The check order, and which
failure branches delete the record, mirror the source exactly: only the
expired and already-used branches delete; the client-id, redirect-URI and
PKCE failures return with the registry unchanged.  On the success path the
used-flag is set before the account lookup and the mint, and the record is
deleted only after both succeed. -/
def ExchangeCodeForTokens (getAccount : String → Except String Account)
    (mint : String → String → String → Except String TokenPair) (now : Int)
    (codes : CodeState) (code clientID codeVerifier redirectURI : String) :
    CodeState × Except String TokenPair :=
  match lookupCode codes code with
  | none => (codes, .error "invalid authorization code")
  | some authCode =>
    if now > authCode.ExpiresAt then
      (deleteCode codes code, .error "authorization code expired")
    else if authCode.Used then
      (deleteCode codes code, .error "authorization code already used")
    else if authCode.ClientID ≠ clientID then
      (codes, .error "invalid client ID")
    else if authCode.RedirectURI ≠ redirectURI then
      (codes, .error "invalid redirect URI")
    else if ¬ validatePKCE authCode.CodeChallenge codeVerifier authCode.CodeChallengeMethod then
      (codes, .error "PKCE validation failed")
    else
      let codes1 := setUsed codes code
      match getAccount authCode.AccountID with
      | .error e => (codes1, .error ("failed to get account: " ++ e))
      | .ok acc =>
        match mint acc.ID acc.Email acc.Name with
        | .error e => (codes1, .error ("failed to generate tokens: " ++ e))
        | .ok pair => (deleteCode codes1 code, .ok pair)

/-- Whether an exchange result is a success. -/
def exchangeOk : Except String TokenPair → Bool
  | .ok _ => true
  | .error _ => false

/-- One exchange request arriving at the token endpoint: its arrival time
and the four client-supplied parameters. -/
structure ExchangeReq where
  now : Int
  code : String
  clientID : String
  codeVerifier : String
  redirectURI : String

/-- Run a sequence of exchanges against the registry, recording for each
request its code value and whether it succeeded. -/
def runExchanges (getAccount : String → Except String Account)
    (mint : String → String → String → Except String TokenPair) :
    CodeState → List ExchangeReq → CodeState × List (String × Bool)
  | s, [] => (s, [])
  | s, r :: rs =>
    let step := ExchangeCodeForTokens getAccount mint r.now s r.code r.clientID
      r.codeVerifier r.redirectURI
    let rest := runExchanges getAccount mint step.1 rs
    (rest.1, (r.code, exchangeOk step.2) :: rest.2)

/-- How many of the recorded outcomes are successes of code `c`. -/
def successesFor (c : String) (log : List (String × Bool)) : Nat :=
  (log.filter fun p => p.1 == c && p.2).length

/-! ## Password hasher (`BcryptPasswordHasher`)

The bcrypt primitive itself lives in `golang.org/x/crypto/bcrypt`, outside
the repository; it is abstracted by two function parameters.  `bcryptGen`
models `bcrypt.GenerateFromPassword` — it receives the per-call random salt
explicitly — and `bcryptCheck` models the success of
`bcrypt.CompareHashAndPassword`.  Theorems about the hasher assume only the
library's documented contract: a generated hash verifies its own password,
verifies no other password, and is never the empty string. -/

/-- Go `len(s)`: the byte length of a string. -/
def goLen (s : String) : Nat := (utf8Bytes s).length

/-- Model of `BcryptPasswordHasher.Hash`: reject the empty password, then
delegate to the bcrypt primitive. -/
def Hash (bcryptGen : Nat → String → String) (salt : Nat) (password : String) :
    Except String String :=
  if goLen password = 0 then .error "password cannot be empty"
  else .ok (bcryptGen salt password)

/-- Model of `BcryptPasswordHasher.Compare`: reject an empty password or
verifier, then delegate to the bcrypt primitive; a primitive failure becomes
the invalid-password error. -/
def Compare (bcryptCheck : String → String → Bool) (hashedPassword password : String) :
    Except String Unit :=
  if goLen password = 0 || goLen hashedPassword = 0 then
    .error "password and hash cannot be empty"
  else if bcryptCheck hashedPassword password then .ok ()
  else .error "invalid password"

/-! ## Account store (`InMemoryAccountRepository`)

The backing Go map is modelled as the list of its records in iteration
order.  Go leaves map iteration order unspecified, so the list order is an
arbitrary parameter of the model; the repository's own operations never
reorder it (`Create` is placed at the tail). -/

/-- The in-memory account map, in iteration order. -/
abbrev AccountStore := List Account

/-- Model of `InMemoryAccountRepository.Create`: reject a duplicate id or a
duplicate email, otherwise store (a copy of) the record. -/
def repoCreate (store : AccountStore) (acc : Account) : Except String AccountStore :=
  if store.any fun a => a.ID == acc.ID then
    .error ("account with ID " ++ acc.ID ++ " already exists")
  else if store.any fun a => a.Email == acc.Email then
    .error ("account with email " ++ acc.Email ++ " already exists")
  else .ok (store ++ [acc])

/-- Model of `InMemoryAccountRepository.GetByEmail`: first record with the
email, else not-found. -/
def repoGetByEmail (store : AccountStore) (email : String) : Except String Account :=
  match store.find? fun a => a.Email == email with
  | some acc => .ok acc
  | none => .error "account not found"

/-- Model of `InMemoryAccountRepository.GetByID`. -/
def repoGetByID (store : AccountStore) (id : String) : Except String Account :=
  match store.find? fun a => a.ID == id with
  | some acc => .ok acc
  | none => .error "account not found"

/-- Model of `InMemoryAccountRepository.List`: clamp `start` and `end` to
the number of records and return the slice `accounts[start:end]` of the
iteration-order list — no sorting of any kind. -/
def repoList (store : AccountStore) (limit offset : Nat) : List Account :=
  let start := min offset store.length
  let stop := min (start + limit) store.length
  (store.take stop).drop start

/-! ## Account use case (`AccountUseCase`) -/

/-- Model of `AccountUseCase.ListAccounts`: normalize the pagination inputs
(`limit ≤ 0` becomes 10, `limit > 100` becomes 100, `offset < 0` becomes 0)
and delegate to the repository.  Inputs are `Int` because Go's `int` admits
negatives; after clamping both are non-negative. -/
def ListAccounts (store : AccountStore) (limit offset : Int) : List Account :=
  let l1 : Int := if limit ≤ 0 then 10 else limit
  let l2 : Int := if l1 > 100 then 100 else l1
  let o : Int := if offset < 0 then 0 else offset
  repoList store l2.toNat o.toNat

/-- Model of `AccountUseCase.CreateAccount`: validate the inputs, reject a
duplicate email, generate the id (`newId` stands for the random hex id),
hash the password, build the record with `Verified := true` and
`Nickname := name`, and store it.  `now` stands for `time.Now()`. -/
def CreateAccount (bcryptGen : Nat → String → String) (salt : Nat) (newId : String)
    (now : Int) (store : AccountStore) (email password name : String) :
    Except String (AccountStore × Account) :=
  if email = "" then .error "email is required"
  else if password = "" then .error "password is required"
  else if goLen password < 8 then .error "password must be at least 8 characters"
  else
    match repoGetByEmail store email with
    | .ok _ => .error ("account with email " ++ email ++ " already exists")
    | .error _ =>
      match Hash bcryptGen salt password with
      | .error e => .error ("failed to hash password: " ++ e)
      | .ok hashed =>
        let newAccount : Account :=
          { ID := newId, Email := email, Password := hashed, Name := name,
            Nickname := name, Picture := "", CreatedAt := now, UpdatedAt := now,
            Verified := true, Blocked := false }
        match repoCreate store newAccount with
        | .error e => .error ("failed to create account: " ++ e)
        | .ok store2 => .ok (store2, newAccount)

/-! ## HTTP handlers (`AuthHandler`) -/

/-- Go `strings.Contains`, via a helper matching a pattern at the head. -/
def leadEq (pat text : List Char) : Bool :=
  match pat, text with
  | [], _ => true
  | _, [] => false
  | c :: cs, d :: ds => (c == d) && leadEq cs ds

/-- Whether `pat` occurs anywhere in the haystack. -/
def subMatch (pat : List Char) : List Char → Bool
  | [] => leadEq pat []
  | h :: t => leadEq pat (h :: t) || subMatch pat t

/-- Go `strings.Contains s sub`. -/
def strContainsSub (s sub : String) : Bool := subMatch sub.data s.data

/-- A signup response: either an error envelope or the 201 payload with its
five fields (`account_id`, `email`, `name`, `email_verified`, `created_at`). -/
inductive SignupResponse where
  | errorResp (status : Nat) (errorCode desc : String)
  | created (account_id email name : String) (email_verified : Bool) (created_at : Int)
deriving Repr, DecidableEq

/-- The decoded signup request body. -/
structure SignupRequest where
  email : String
  password : String
  name : String
deriving Repr, DecidableEq

/-- Model of `AuthHandler.SignupHandler` after a successful JSON decode:
reject a missing email or password as 400 `invalid_request`; run
`CreateAccount`; map an error containing `"already exists"` to 409
`account_exists` and every other error to 500 `server_error`; answer 201
with the account fields otherwise.  Returns the response and the resulting
store. -/
def SignupHandler (bcryptGen : Nat → String → String) (salt : Nat) (newId : String)
    (now : Int) (store : AccountStore) (req : SignupRequest) :
    SignupResponse × AccountStore :=
  if req.email = "" || req.password = "" then
    (.errorResp 400 "invalid_request" "email and password are required", store)
  else
    match CreateAccount bcryptGen salt newId now store req.email req.password req.name with
    | .error msg =>
      if strContainsSub msg "already exists" then
        (.errorResp 409 "account_exists" "Account already exists", store)
      else (.errorResp 500 "server_error" "Internal server error", store)
    | .ok (store2, acc) =>
      (.created acc.ID acc.Email acc.Name acc.Verified acc.CreatedAt, store2)

/-- What the authorization endpoint sends back for a rejected request. -/
inductive HttpOut where
  | json (status : Nat) (errorCode desc : String)
  | redirect (status : Nat) (location : String)
  | panicked (msg : String)
  | proceed
deriving Repr, DecidableEq

/-- Model of the standard library `net/http.Redirect`: it reads `r.Method`
unconditionally (to decide whether to attach an HTML body), so calling it
with a `nil` request panics with a nil-pointer dereference before any
response is written; with a real request it writes the status and the
`Location` header. -/
def httpRedirect (hasRequest : Bool) (url : String) (status : Nat) : HttpOut :=
  if hasRequest then .redirect status url
  else .panicked "invalid memory address or nil pointer dereference"

/-- Model of `AuthHandler.sendAuthorizationError`: with an empty
`redirect_uri`, answer the error envelope directly as a 400 JSON body;
otherwise build the error redirect URL (echoing `state` when non-empty) and
call `http.Redirect` — which the source calls with a `nil` request. -/
def sendAuthorizationError (redirectURI errorCode errorDescription state : String) : HttpOut :=
  if redirectURI = "" then .json 400 errorCode errorDescription
  else
    let url := redirectURI ++ "?error=" ++ errorCode ++ "&error_description=" ++ errorDescription
    let url2 := if state ≠ "" then url ++ "&state=" ++ state else url
    httpRedirect false url2 302

/-- The query parameters of an authorization request (missing = empty). -/
structure AuthorizeParams where
  responseType : String
  clientID : String
  redirectURI : String
  state : String
  scope : String
  codeChallenge : String
  codeChallengeMethod : String
deriving Repr, DecidableEq

/-- Model of the parameter-validation stage of `AuthHandler.AuthorizeHandler`
(the descriptions match the source up to elided ASCII quote marks): a
`response_type` other than `code` is rejected as `unsupported_response_type`;
a missing `client_id`, `redirect_uri` or `code_challenge`, or a
`code_challenge_method` other than `S256`, as `invalid_request`; a request
passing all checks proceeds to the login form / credential handling. -/
def AuthorizeHandlerValidate (p : AuthorizeParams) : HttpOut :=
  if p.responseType ≠ "code" then
    sendAuthorizationError p.redirectURI "unsupported_response_type"
      "Only the code response type is supported" p.state
  else if p.clientID = "" || p.redirectURI = "" || p.codeChallenge = "" then
    sendAuthorizationError p.redirectURI "invalid_request"
      "client_id, redirect_uri, and code_challenge are required" p.state
  else if p.codeChallengeMethod ≠ "S256" then
    sendAuthorizationError p.redirectURI "invalid_request"
      "code_challenge_method must be S256" p.state
  else .proceed

/-! ## Auxiliary model-level definitions -/

/-- Whether the registry can no longer satisfy an exchange of `c`: the code
is absent, or its record already carries `Used = true`. -/
def usedOrAbsentB (c : String) (s : CodeState) : Bool :=
  match lookupCode s c with
  | none => true
  | some r => r.Used

/-- The ordering the specification claims for listings, as a decidable
check: every record was created no earlier than the one after it
(created-at descending). -/
def createdAtDescendingB : List Account → Bool
  | [] => true
  | [_] => true
  | a :: b :: t => decide (b.CreatedAt ≤ a.CreatedAt) && createdAtDescendingB (b :: t)

/-- A toy instantiation of the bcrypt generate primitive (salt ignored),
used only to discharge the library-contract hypotheses in witnesses. -/
def toyBcryptGen (_salt : Nat) (password : String) : String := "h:" ++ password

/-- The matching toy instantiation of the bcrypt verify primitive. -/
def toyBcryptCheck (hashed password : String) : Bool := hashed == "h:" ++ password

/-! # Theorems -/

theorem utf8Bytes_append (s t : String) :
    utf8Bytes (s ++ t) = utf8Bytes s ++ utf8Bytes t := by
  simp [utf8Bytes, String.data_append]

/-- FIPS 180-4 test vector: SHA-256 of `"abc"`. -/
theorem sha256_vector_abc :
    sha256 (utf8Bytes "abc") =
      [186, 120, 22, 191, 143, 1, 207, 234, 65, 65, 64, 222,
       93, 174, 34, 35, 176, 3, 97, 163, 150, 23, 122, 156,
       180, 16, 255, 97, 242, 0, 21, 173] := by
  decide

/-- RFC 7636 appendix B test vector: the S256 challenge of the example
verifier, also used by the specification's end-to-end scenarios. -/
theorem sha256_vector_rfc7636 :
    b64UrlNoPad (sha256 (utf8Bytes "dBjftJeZ4CVP-mB92K27uhbUJU1p1r_wW1gFWFOEjXk")) =
      "E9Melhoa2OwvFrEMTJguCHaoeK1t8URWbuGJSstw-cM" := by
  decide

/-! ## Elementary facts about the byte model -/

theorem utf8Char_ne_nil (c : Char) : utf8Char c ≠ [] := by
  intro h
  simp only [utf8Char] at h
  split_ifs at h

theorem utf8Bytes_eq_nil_iff (s : String) : utf8Bytes s = [] ↔ s = "" := by
  obtain ⟨data⟩ := s
  cases data with
  | nil => simp [utf8Bytes]
  | cons c cs =>
    simp only [utf8Bytes, List.map_cons, List.flatten_cons, List.append_eq_nil]
    constructor
    · rintro ⟨h, -⟩
      exact absurd h (utf8Char_ne_nil c)
    · intro h
      exact absurd (congrArg String.data h) (by simp)

theorem goLen_eq_zero_iff (s : String) : goLen s = 0 ↔ s = "" := by
  rw [goLen, List.length_eq_zero, utf8Bytes_eq_nil_iff]

/-! ## C3 — the PKCE verifier -/

/-- C3: the PKCE check accepts a `(challenge, verifier, method)` triple if
and only if the method is `"S256"` and the URL-safe unpadded base64 of
SHA-256 of the verifier bytes equals the challenge; every other method
(including `"plain"`) is rejected for every input. -/
theorem validatePKCE_accepts_iff (C V M : String) :
    validatePKCE C V M = true ↔
      M = "S256" ∧ b64UrlNoPad (sha256 (utf8Bytes V)) = C := by
  unfold validatePKCE
  by_cases h : M = "S256" <;> simp [h]

/-! ## C5 — token-service key derivation -/

/-- C5 counterexample: at the concrete secret `"short"` (shorter than 32
bytes after the domain-separation suffix is appended) the token-service
constructor panics with a slice-bounds error; it does not fail with a
`MISCONFIGURED` error — the Go constructor has no error return at all. -/
theorem newJWETokenService_short_secret_panics :
    NewJWETokenService "short" = .panicked "slice bounds out of range" := by
  decide

/-- C5 (amended): a secret shorter than 32 bytes after domain separation
makes the constructor panic (uncontrolled), not fail with `MISCONFIGURED`;
for sufficient lengths the two derived keys are exactly 32 bytes each,
taken from the distinct domain-separation inputs `secret + "_sig"` and
`secret + "_enc"`. -/
theorem newJWETokenService_keys (secret : String) :
    ((utf8Bytes (secret ++ "_enc")).length < 32 →
      NewJWETokenService secret = .panicked "slice bounds out of range") ∧
    (32 ≤ (utf8Bytes (secret ++ "_enc")).length →
      NewJWETokenService secret =
        .ok ((utf8Bytes (secret ++ "_sig")).take 32)
          ((utf8Bytes (secret ++ "_enc")).take 32) ∧
      ((utf8Bytes (secret ++ "_sig")).take 32).length = 32 ∧
      ((utf8Bytes (secret ++ "_enc")).take 32).length = 32 ∧
      secret ++ "_sig" ≠ secret ++ "_enc") := by
  have hsig : (utf8Bytes (secret ++ "_sig")).length = (utf8Bytes secret).length + 4 := by
    rw [utf8Bytes_append, List.length_append]
    rfl
  have henc : (utf8Bytes (secret ++ "_enc")).length = (utf8Bytes secret).length + 4 := by
    rw [utf8Bytes_append, List.length_append]
    rfl
  refine ⟨fun h => ?_, fun h => ⟨?_, ?_, ?_, ?_⟩⟩
  · unfold NewJWETokenService
    simp [h]
  · unfold NewJWETokenService
    rw [if_neg (by omega), if_neg (by omega)]
  · simp only [List.length_take]
    omega
  · simp only [List.length_take]
    omega
  · intro hc
    have hd := congrArg String.data hc
    rw [String.data_append, String.data_append] at hd
    have := List.append_cancel_left hd
    exact absurd this (by decide)

/-- Witness for C5 (amended) at a 32-byte secret. -/
theorem newJWETokenService_keys_witness :
    32 ≤ (utf8Bytes ("0123456789abcdef0123456789abcdef" ++ "_enc")).length ∧
    (NewJWETokenService "0123456789abcdef0123456789abcdef" =
        .ok ((utf8Bytes ("0123456789abcdef0123456789abcdef" ++ "_sig")).take 32)
          ((utf8Bytes ("0123456789abcdef0123456789abcdef" ++ "_enc")).take 32) ∧
      ((utf8Bytes ("0123456789abcdef0123456789abcdef" ++ "_sig")).take 32).length = 32 ∧
      ((utf8Bytes ("0123456789abcdef0123456789abcdef" ++ "_enc")).take 32).length = 32 ∧
      "0123456789abcdef0123456789abcdef" ++ "_sig" ≠
        "0123456789abcdef0123456789abcdef" ++ "_enc") :=
  ⟨by decide, (newJWETokenService_keys "0123456789abcdef0123456789abcdef").2 (by decide)⟩

/-! ## C6 — authorization-request rejection delivery -/

/-- C6 (code bug, evaluated at the failing inputs): a rejected authorization
request with a non-empty `redirect_uri` panics inside `http.Redirect`
(which is called with a `nil` request) instead of answering the 302 error
redirect; with an empty `redirect_uri` the direct 400 JSON branch answers
with the mapped OAuth error code as specified. -/
theorem authorizeReject_panics_instead_of_redirecting :
    AuthorizeHandlerValidate
      { responseType := "token", clientID := "c1",
        redirectURI := "https://client.example/cb", state := "s1", scope := "openid",
        codeChallenge := "abc", codeChallengeMethod := "S256" } =
      .panicked "invalid memory address or nil pointer dereference" ∧
    AuthorizeHandlerValidate
      { responseType := "token", clientID := "c1", redirectURI := "", state := "",
        scope := "", codeChallenge := "abc", codeChallengeMethod := "S256" } =
      .json 400 "unsupported_response_type" "Only the code response type is supported" ∧
    AuthorizeHandlerValidate
      { responseType := "code", clientID := "c1",
        redirectURI := "https://client.example/cb", state := "", scope := "",
        codeChallenge := "abc", codeChallengeMethod := "plain" } =
      .panicked "invalid memory address or nil pointer dereference" := by
  decide

/-! ## C4 — token mint/validate round trip -/

/-- C4: validating a freshly minted access token recovers exactly the
subject, email and name, with expiry equal to issue time plus the 24-hour
access TTL; the access token carries scope `"openid profile email"` while
the refresh token of the same pair expires at issue time plus 7 days and
carries no scope claim. -/
theorem validate_of_mint_access (issuer : String) (audience : List String)
    (now vt : Int) (userID email name : String)
    (hlo : now ≤ vt) (hhi : vt ≤ now + 24 * 3600) :
    ValidateToken vt (GenerateTokenPair issuer audience now userID email name).AccessToken =
      .ok { Subject := userID, Issuer := issuer, Audience := audience,
            ExpiresAt := now + 24 * 3600, IssuedAt := now, NotBefore := now,
            Email := email, Name := name, Scope := "openid profile email" } ∧
    (GenerateTokenPair issuer audience now userID email name).AccessToken.scope =
      some "openid profile email" ∧
    (GenerateTokenPair issuer audience now userID email name).RefreshToken.scope = none ∧
    (GenerateTokenPair issuer audience now userID email name).RefreshToken.exp =
      now + 7 * 24 * 3600 := by
  have h1 : vt ≤ now + 86400 := by omega
  have h2 : ¬ (vt < now) := by omega
  simp [GenerateTokenPair, createEncryptedToken, ValidateToken, h1, h2]

/-- Witness for C4 at concrete issuer, audience, instants and identity. -/
theorem validate_of_mint_access_witness :
    ((0 : Int) ≤ 5 ∧ (5 : Int) ≤ 0 + 24 * 3600) ∧
    (ValidateToken 5 (GenerateTokenPair "auth0-server" ["api"] 0 "a1" "a@x" "A").AccessToken =
      .ok { Subject := "a1", Issuer := "auth0-server", Audience := ["api"],
            ExpiresAt := 0 + 24 * 3600, IssuedAt := 0, NotBefore := 0,
            Email := "a@x", Name := "A", Scope := "openid profile email" } ∧
    (GenerateTokenPair "auth0-server" ["api"] 0 "a1" "a@x" "A").AccessToken.scope =
      some "openid profile email" ∧
    (GenerateTokenPair "auth0-server" ["api"] 0 "a1" "a@x" "A").RefreshToken.scope = none ∧
    (GenerateTokenPair "auth0-server" ["api"] 0 "a1" "a@x" "A").RefreshToken.exp =
      0 + 7 * 24 * 3600) :=
  ⟨⟨by norm_num, by norm_num⟩,
   validate_of_mint_access "auth0-server" ["api"] 0 5 "a1" "a@x" "A" (by norm_num) (by norm_num)⟩

/-! ## C7 — password hasher -/

/-- C7: under the bcrypt library contract (a generated verifier is
non-empty, verifies its own password, and verifies no other password), the
repository hasher hashes any non-empty password to a verifier that compares
ok against that password and fails against every other password, and
hashing the empty password fails with the invalid-input error. -/
theorem hash_compare_roundtrip
    (bcryptGen : Nat → String → String) (bcryptCheck : String → String → Bool)
    (hne : ∀ s p, bcryptGen s p ≠ "")
    (hok : ∀ s p, bcryptCheck (bcryptGen s p) p = true)
    (hsound : ∀ s p q, bcryptCheck (bcryptGen s p) q = true → q = p)
    (salt : Nat) (P : String) (hP : P ≠ "") :
    Hash bcryptGen salt "" = .error "password cannot be empty" ∧
    Hash bcryptGen salt P = .ok (bcryptGen salt P) ∧
    Compare bcryptCheck (bcryptGen salt P) P = .ok () ∧
    ∀ Q, Q ≠ P → Compare bcryptCheck (bcryptGen salt P) Q ≠ .ok () := by
  have hPlen : goLen P ≠ 0 := fun h => hP ((goLen_eq_zero_iff P).1 h)
  have hHlen : goLen (bcryptGen salt P) ≠ 0 :=
    fun h => hne salt P ((goLen_eq_zero_iff _).1 h)
  refine ⟨?_, ?_, ?_, ?_⟩
  · simp [Hash, goLen, utf8Bytes]
  · simp [Hash, hPlen]
  · simp [Compare, hPlen, hHlen, hok]
  · intro Q hQ hcon
    by_cases hq : goLen Q = 0
    · simp [Compare, hq] at hcon
    · by_cases hb : bcryptCheck (bcryptGen salt P) Q = true
      · exact hQ (hsound salt P Q hb)
      · simp [Compare, hq, hHlen, hb] at hcon

/-- Witness for C7: the toy bcrypt instantiation satisfies the contract,
and the hasher round-trips on a concrete password. -/
theorem hash_compare_roundtrip_witness :
    "Passw0rd!" ≠ "" ∧
    (Hash toyBcryptGen 0 "" = .error "password cannot be empty" ∧
    Hash toyBcryptGen 0 "Passw0rd!" = .ok (toyBcryptGen 0 "Passw0rd!") ∧
    Compare toyBcryptCheck (toyBcryptGen 0 "Passw0rd!") "Passw0rd!" = .ok () ∧
    ∀ Q, Q ≠ "Passw0rd!" → Compare toyBcryptCheck (toyBcryptGen 0 "Passw0rd!") Q ≠ .ok ()) :=
  ⟨by decide,
   hash_compare_roundtrip toyBcryptGen toyBcryptCheck
    (by
      intro s p hc
      have hd := congrArg String.data hc
      rw [toyBcryptGen, String.data_append] at hd
      exact absurd (List.append_eq_nil.mp hd).1 (by decide))
    (by intro s p; simp [toyBcryptCheck, toyBcryptGen])
    (by
      intro s p q h
      simp only [toyBcryptCheck, toyBcryptGen, beq_iff_eq] at h
      have hd := congrArg String.data h.symm
      rw [String.data_append, String.data_append] at hd
      exact congrArg String.mk (List.append_cancel_left hd))
    0 "Passw0rd!" (by decide)⟩

/-! ## Occurrence of a pattern in an error message -/

theorem leadEq_self (l : List Char) : leadEq l l = true := by
  induction l with
  | nil => rfl
  | cons a t ih => simp [leadEq, ih]

theorem subMatch_append (pat ys : List Char) (h : leadEq pat ys = true) :
    ∀ xs, subMatch pat (xs ++ ys) = true := by
  intro xs
  induction xs with
  | nil =>
    cases ys with
    | nil => simpa [subMatch] using h
    | cons y t => simp [subMatch, h]
  | cons x t ih => simp [subMatch, ih]

/-- The duplicate-email error message always contains `"already exists"`. -/
theorem contains_already_exists (email : String) :
    strContainsSub ("account with email " ++ email ++ " already exists")
      "already exists" = true := by
  unfold strContainsSub
  rw [String.data_append, String.data_append]
  have hsplit : (" already exists").data = [' '] ++ ("already exists").data := by decide
  rw [hsplit, ← List.append_assoc]
  exact subMatch_append _ _ (leadEq_self _) _

/-! ## C9 — signup endpoint status mapping -/

/-- C9 counterexample: a signup request with a present but 7-character
password is answered 500 `server_error`, not 400 `invalid_request` — the
use-case's length error does not contain `"already exists"`, so the handler
falls through to the internal-error branch. -/
theorem signup_short_password_is_500 :
    SignupHandler toyBcryptGen 0 "id1" 0 []
      { email := "a@x", password := "short12", name := "A" } =
      (.errorResp 500 "server_error" "Internal server error", []) := by
  decide

/-- C9 (amended): a missing email or password is 400 `invalid_request`; a
present but shorter-than-8-byte password is 500 `server_error` (not 400); a
duplicate email with a valid password is 409 `account_exists`; a valid
request is answered 201 with the account fields. -/
theorem signupHandler_status_mapping
    (bcryptGen : Nat → String → String) (salt : Nat) (newId : String) (now : Int)
    (store : AccountStore) (req : SignupRequest) :
    (req.email = "" ∨ req.password = "" →
      SignupHandler bcryptGen salt newId now store req =
        (.errorResp 400 "invalid_request" "email and password are required", store)) ∧
    (req.email ≠ "" → req.password ≠ "" → goLen req.password < 8 →
      SignupHandler bcryptGen salt newId now store req =
        (.errorResp 500 "server_error" "Internal server error", store)) ∧
    (req.email ≠ "" → 8 ≤ goLen req.password →
      (store.find? fun a => a.Email == req.email).isSome = true →
      SignupHandler bcryptGen salt newId now store req =
        (.errorResp 409 "account_exists" "Account already exists", store)) ∧
    (req.email ≠ "" → 8 ≤ goLen req.password →
      store.find? (fun a => a.Email == req.email) = none →
      (store.any fun a => a.ID == newId) = false →
      (SignupHandler bcryptGen salt newId now store req).1 =
        .created newId req.email req.name true now) := by
  refine ⟨?_, ?_, ?_, ?_⟩
  · rintro (h | h) <;> simp [SignupHandler, h]
  · intro he hp hlen
    have h8 : goLen req.password < 8 := hlen
    simp [SignupHandler, he, hp, CreateAccount, h8]
    have : ¬ strContainsSub "password must be at least 8 characters" "already exists" = true := by
      decide
    simp [this]
  · intro he hlen hdup
    have hp : req.password ≠ "" := by
      intro h
      rw [h] at hlen
      simp [goLen, utf8Bytes] at hlen
    obtain ⟨acc, hacc⟩ := Option.isSome_iff_exists.mp hdup
    have h8 : ¬ goLen req.password < 8 := by omega
    simp [SignupHandler, he, hp, CreateAccount, h8, repoGetByEmail, hacc,
      contains_already_exists]
  · intro he hlen hdup hid
    have hp : req.password ≠ "" := by
      intro h
      rw [h] at hlen
      simp [goLen, utf8Bytes] at hlen
    have h8 : ¬ goLen req.password < 8 := by omega
    have hplen : goLen req.password ≠ 0 := by omega
    have hdup2 : (store.any fun a => a.Email == req.email) = false := by
      rw [List.any_eq_false]
      intro a ha
      have := List.find?_eq_none.mp hdup a ha
      simpa using this
    simp [SignupHandler, he, hp, CreateAccount, h8, repoGetByEmail, hdup,
      Hash, hplen, repoCreate, hid, hdup2]

/-- Witness for C9 (amended), exercising the duplicate-email branch. -/
theorem signupHandler_status_mapping_witness :
    ("b@x" ≠ "" ∧ 8 ≤ goLen "Passw0rd!" ∧
      (List.find? (fun a => a.Email == "b@x")
        [({ ID := "x1", Email := "b@x", Password := "h", Name := "B", Nickname := "B",
            Picture := "", CreatedAt := 0, UpdatedAt := 0, Verified := true,
            Blocked := false } : Account)]).isSome = true) ∧
    SignupHandler toyBcryptGen 0 "id2" 7
      [{ ID := "x1", Email := "b@x", Password := "h", Name := "B", Nickname := "B",
         Picture := "", CreatedAt := 0, UpdatedAt := 0, Verified := true,
         Blocked := false }]
      { email := "b@x", password := "Passw0rd!", name := "B2" } =
      (.errorResp 409 "account_exists" "Account already exists",
       [{ ID := "x1", Email := "b@x", Password := "h", Name := "B", Nickname := "B",
          Picture := "", CreatedAt := 0, UpdatedAt := 0, Verified := true,
          Blocked := false }]) :=
  ⟨⟨by decide, by decide, by decide⟩,
   (signupHandler_status_mapping toyBcryptGen 0 "id2" 7
      [{ ID := "x1", Email := "b@x", Password := "h", Name := "B", Nickname := "B",
         Picture := "", CreatedAt := 0, UpdatedAt := 0, Verified := true,
         Blocked := false }]
      { email := "b@x", password := "Passw0rd!", name := "B2" }).2.2.1
    (by decide) (by decide) (by decide)⟩

/-! ## C10 — signup stores a verified account -/

/-- C10: a successful signup stores exactly the account built by
`CreateAccount` — with `Verified = true` and `Nickname` equal to the
supplied name — and answers 201 with `email_verified = true`. -/
theorem signup_stores_verified_account
    (bcryptGen : Nat → String → String) (salt : Nat) (newId : String) (now : Int)
    (store : AccountStore) (req : SignupRequest)
    (hemail : req.email ≠ "") (hlen : 8 ≤ goLen req.password)
    (hdup : store.find? (fun a => a.Email == req.email) = none)
    (hid : (store.any fun a => a.ID == newId) = false) :
    SignupHandler bcryptGen salt newId now store req =
      (.created newId req.email req.name true now,
       store ++ [{ ID := newId, Email := req.email,
                   Password := bcryptGen salt req.password, Name := req.name,
                   Nickname := req.name, Picture := "", CreatedAt := now,
                   UpdatedAt := now, Verified := true, Blocked := false }]) := by
  have hp : req.password ≠ "" := by
    intro h
    rw [h] at hlen
    simp [goLen, utf8Bytes] at hlen
  have h8 : ¬ goLen req.password < 8 := by omega
  have hplen : goLen req.password ≠ 0 := by omega
  have hdup2 : (store.any fun a => a.Email == req.email) = false := by
    rw [List.any_eq_false]
    intro a ha
    have := List.find?_eq_none.mp hdup a ha
    simpa using this
  simp [SignupHandler, hemail, hp, CreateAccount, h8, repoGetByEmail, hdup,
    Hash, hplen, repoCreate, hid, hdup2]

/-- Witness for C10 on an empty store. -/
theorem signup_stores_verified_account_witness :
    ("a@x" ≠ "" ∧ 8 ≤ goLen "Passw0rd!" ∧
      List.find? (fun a => a.Email == "a@x") ([] : AccountStore) = none ∧
      (List.any ([] : AccountStore) fun a => a.ID == "id1") = false) ∧
    SignupHandler toyBcryptGen 0 "id1" 3 []
      { email := "a@x", password := "Passw0rd!", name := "A" } =
      (.created "id1" "a@x" "A" true 3,
       [{ ID := "id1", Email := "a@x", Password := toyBcryptGen 0 "Passw0rd!",
          Name := "A", Nickname := "A", Picture := "", CreatedAt := 3,
          UpdatedAt := 3, Verified := true, Blocked := false }]) :=
  ⟨⟨by decide, by decide, by decide, by decide⟩,
   signup_stores_verified_account toyBcryptGen 0 "id1" 3 []
     { email := "a@x", password := "Passw0rd!", name := "A" }
     (by decide) (by decide) (by decide) (by decide)⟩

/-! ## C8 — account listing -/

/-- The repository slice is the contiguous drop/take slice of the store in
iteration order. -/
theorem repoList_eq_drop_take (store : AccountStore) (limit offset : Nat) :
    repoList store limit offset = (store.drop offset).take limit := by
  simp only [repoList]
  apply List.ext_getElem?
  intro i
  rw [List.getElem?_drop, List.getElem?_take, List.getElem?_take, List.getElem?_drop]
  split_ifs with h1 h2
  · congr 1
    omega
  · exact ((by omega : False)).elim
  · exact (List.getElem?_eq_none (by omega)).symm
  · rfl

/-- C8 counterexample: with two stored accounts whose iteration order is
ascending by creation time, the listing returns them in that same order —
no created-at-descending sort is applied. -/
theorem listAccounts_not_sorted_desc :
    (ListAccounts
      [{ ID := "x1", Email := "a@x", Password := "h", Name := "A", Nickname := "A",
         Picture := "", CreatedAt := 1, UpdatedAt := 1, Verified := true,
         Blocked := false },
       { ID := "x2", Email := "b@x", Password := "h", Name := "B", Nickname := "B",
         Picture := "", CreatedAt := 2, UpdatedAt := 2, Verified := true,
         Blocked := false }] 10 0).map Account.CreatedAt = [1, 2] ∧
    createdAtDescendingB
      (ListAccounts
        [{ ID := "x1", Email := "a@x", Password := "h", Name := "A", Nickname := "A",
           Picture := "", CreatedAt := 1, UpdatedAt := 1, Verified := true,
           Blocked := false },
         { ID := "x2", Email := "b@x", Password := "h", Name := "B", Nickname := "B",
           Picture := "", CreatedAt := 2, UpdatedAt := 2, Verified := true,
           Blocked := false }] 10 0) = false := by
  constructor
  · decide
  · decide

/-- C8 (amended): the listing clamps a non-positive limit to 10, caps the
effective limit at 100, clamps a negative offset to 0, and returns the
contiguous slice of the store in its (unspecified) map iteration order —
no created-at ordering is imposed; the result never exceeds 100 records. -/
theorem listAccounts_slice (store : AccountStore) (limit offset : Int) :
    ListAccounts store limit offset =
      (store.drop offset.toNat).take
        (if limit ≤ 0 then 10 else (min limit 100).toNat) ∧
    (ListAccounts store limit offset).length ≤ 100 := by
  have hoff : (if offset < (0 : Int) then (0 : Int) else offset).toNat = offset.toNat := by
    split_ifs <;> omega
  have hlim : (if (if limit ≤ (0 : Int) then (10 : Int) else limit) > 100 then (100 : Int)
        else if limit ≤ (0 : Int) then (10 : Int) else limit).toNat
      = if limit ≤ (0 : Int) then (10 : Nat) else (min limit 100).toNat := by
    split_ifs <;> omega
  have heq : ListAccounts store limit offset =
      (store.drop offset.toNat).take
        (if limit ≤ 0 then 10 else (min limit 100).toNat) := by
    simp only [ListAccounts]
    rw [repoList_eq_drop_take, hoff, hlim]
  refine ⟨heq, ?_⟩
  rw [heq]
  by_cases h0 : limit ≤ 0
  · simp only [h0, if_true]
    have := List.length_take_le 10 (store.drop offset.toNat)
    omega
  · simp only [h0, if_false]
    have := List.length_take_le (min limit 100).toNat (store.drop offset.toNat)
    omega

/-! ## Registry operations -/

theorem lookupCode_deleteCode (s : CodeState) (x c : String) :
    lookupCode (deleteCode s x) c = if c = x then none else lookupCode s c := by
  induction s with
  | nil => simp [lookupCode, deleteCode]
  | cons p t ih =>
    obtain ⟨a, b⟩ := p
    by_cases hax : a = x <;> by_cases hac : a = c <;>
      simp_all [lookupCode, deleteCode, List.filter_cons, List.find?_cons]

theorem lookupCode_setUsed (s : CodeState) (x c : String) :
    lookupCode (setUsed s x) c =
      if c = x then (lookupCode s c).map (fun r => { r with Used := true })
      else lookupCode s c := by
  unfold lookupCode setUsed
  rw [List.find?_map]
  have hpred : ((fun p : String × AuthorizationCode => p.1 == c) ∘ fun p =>
      if p.1 == x then (p.1, { p.2 with Used := true }) else p) =
      fun p : String × AuthorizationCode => p.1 == c := by
    funext p
    simp only [Function.comp_apply]
    split <;> rfl
  rw [hpred]
  cases hf : List.find? (fun p : String × AuthorizationCode => p.1 == c) s with
  | none => simp
  | some p0 =>
    have hc : p0.1 = c := by simpa using List.find?_some hf
    by_cases hcx : c = x
    · rw [if_pos hcx]
      simp [hc, hcx]
    · rw [if_neg hcx]
      simp [hc, hcx]

theorem usedOrAbsentB_eq_true_iff (c : String) (s : CodeState) :
    usedOrAbsentB c s = true ↔ ∀ r, lookupCode s c = some r → r.Used = true := by
  unfold usedOrAbsentB
  cases h : lookupCode s c <;> simp

theorem usedOrAbsentB_deleteCode (s : CodeState) (x c : String)
    (h : usedOrAbsentB c s = true) : usedOrAbsentB c (deleteCode s x) = true := by
  rw [usedOrAbsentB_eq_true_iff] at h ⊢
  intro r hr
  rw [lookupCode_deleteCode] at hr
  split_ifs at hr
  exact h r hr

theorem usedOrAbsentB_setUsed (s : CodeState) (x c : String)
    (h : usedOrAbsentB c s = true) : usedOrAbsentB c (setUsed s x) = true := by
  rw [usedOrAbsentB_eq_true_iff] at h ⊢
  intro r hr
  rw [lookupCode_setUsed] at hr
  split_ifs at hr with hcx
  · cases hls : lookupCode s c with
    | none => rw [hls] at hr; cases hr
    | some r0 =>
      rw [hls] at hr
      simp only [Option.map_some'] at hr
      cases hr
      rfl
  · exact h r hr

/-- Case analysis of one exchange step: the registry afterwards is the old
registry unchanged, the record deleted, the used-flag set, or (exactly on
success) the flag set and the record deleted — and success requires the
record to have been present and unused. -/
theorem exchange_shape (ga : String → Except String Account)
    (mint : String → String → String → Except String TokenPair) (now : Int)
    (s : CodeState) (code cid cv ru : String) :
    ((ExchangeCodeForTokens ga mint now s code cid cv ru).1 = s ∧
      exchangeOk (ExchangeCodeForTokens ga mint now s code cid cv ru).2 = false) ∨
    ((ExchangeCodeForTokens ga mint now s code cid cv ru).1 = deleteCode s code ∧
      exchangeOk (ExchangeCodeForTokens ga mint now s code cid cv ru).2 = false) ∨
    ((ExchangeCodeForTokens ga mint now s code cid cv ru).1 = setUsed s code ∧
      exchangeOk (ExchangeCodeForTokens ga mint now s code cid cv ru).2 = false) ∨
    ((ExchangeCodeForTokens ga mint now s code cid cv ru).1 =
        deleteCode (setUsed s code) code ∧
      exchangeOk (ExchangeCodeForTokens ga mint now s code cid cv ru).2 = true ∧
      ∃ r, lookupCode s code = some r ∧ r.Used = false) := by
  unfold ExchangeCodeForTokens
  cases hl : lookupCode s code with
  | none => left; simp [hl, exchangeOk]
  | some a =>
    by_cases h1 : now > a.ExpiresAt
    · right; left; simp [hl, h1, exchangeOk]
    · by_cases h2 : a.Used
      · right; left; simp [hl, h1, h2, exchangeOk]
      · by_cases h3 : a.ClientID = cid
        · by_cases h4 : a.RedirectURI = ru
          · by_cases h5 : validatePKCE a.CodeChallenge cv a.CodeChallengeMethod
            · cases hga : ga a.AccountID with
              | error e =>
                right; right; left
                simp [hl, h1, h2, h3, h4, h5, hga, exchangeOk]
              | ok acc =>
                cases hm : mint acc.ID acc.Email acc.Name with
                | error e =>
                  right; right; left
                  simp [hl, h1, h2, h3, h4, h5, hga, hm, exchangeOk]
                | ok p =>
                  right; right; right
                  refine ⟨?_, ?_, a, rfl, by simpa using h2⟩ <;>
                    simp [hl, h1, h2, h3, h4, h5, hga, hm, exchangeOk]
            · left; simp [hl, h1, h2, h3, h4, h5, exchangeOk]
          · left; simp [hl, h1, h2, h3, h4, exchangeOk]
        · left; simp [hl, h1, h2, h3, exchangeOk]

theorem exchange_preserves_usedOrAbsent (ga : String → Except String Account)
    (mint : String → String → String → Except String TokenPair) (now : Int)
    (s : CodeState) (code cid cv ru c : String)
    (h : usedOrAbsentB c s = true) :
    usedOrAbsentB c (ExchangeCodeForTokens ga mint now s code cid cv ru).1 = true := by
  rcases exchange_shape ga mint now s code cid cv ru with
    ⟨h1, -⟩ | ⟨h1, -⟩ | ⟨h1, -⟩ | ⟨h1, -, -⟩ <;> rw [h1]
  · exact h
  · exact usedOrAbsentB_deleteCode _ _ _ h
  · exact usedOrAbsentB_setUsed _ _ _ h
  · exact usedOrAbsentB_deleteCode _ _ _ (usedOrAbsentB_setUsed _ _ _ h)

theorem exchange_fails_of_usedOrAbsent (ga : String → Except String Account)
    (mint : String → String → String → Except String TokenPair) (now : Int)
    (s : CodeState) (cid cv ru c : String)
    (h : usedOrAbsentB c s = true) :
    exchangeOk (ExchangeCodeForTokens ga mint now s c cid cv ru).2 = false := by
  rcases exchange_shape ga mint now s c cid cv ru with
    ⟨-, h2⟩ | ⟨-, h2⟩ | ⟨-, h2⟩ | ⟨-, h2, r, hr, hru⟩
  · exact h2
  · exact h2
  · exact h2
  · rw [usedOrAbsentB_eq_true_iff] at h
    rw [h r hr] at hru
    cases hru

theorem exchange_success_clears (ga : String → Except String Account)
    (mint : String → String → String → Except String TokenPair) (now : Int)
    (s : CodeState) (code cid cv ru : String)
    (h : exchangeOk (ExchangeCodeForTokens ga mint now s code cid cv ru).2 = true) :
    usedOrAbsentB code (ExchangeCodeForTokens ga mint now s code cid cv ru).1 = true := by
  rcases exchange_shape ga mint now s code cid cv ru with
    ⟨-, h2⟩ | ⟨-, h2⟩ | ⟨-, h2⟩ | ⟨h1, -, -⟩
  · rw [h2] at h; cases h
  · rw [h2] at h; cases h
  · rw [h2] at h; cases h
  · rw [h1, usedOrAbsentB_eq_true_iff]
    intro r hr
    rw [lookupCode_deleteCode, if_pos rfl] at hr
    cases hr

theorem successesFor_cons (c : String) (x : String × Bool) (l : List (String × Bool)) :
    successesFor c (x :: l) = (if x.1 == c && x.2 then 1 else 0) + successesFor c l := by
  unfold successesFor
  rw [List.filter_cons]
  split_ifs with hx
  · simp [Nat.add_comm]
  · simp

theorem successes_zero_of_usedOrAbsent (ga : String → Except String Account)
    (mint : String → String → String → Except String TokenPair) (c : String) :
    ∀ (reqs : List ExchangeReq) (s : CodeState), usedOrAbsentB c s = true →
      successesFor c (runExchanges ga mint s reqs).2 = 0 := by
  intro reqs
  induction reqs with
  | nil => intro s _; simp [runExchanges, successesFor]
  | cons r rs ih =>
    intro s h
    simp only [runExchanges]
    rw [successesFor_cons]
    have hpres := exchange_preserves_usedOrAbsent ga mint r.now s r.code r.clientID
      r.codeVerifier r.redirectURI c h
    by_cases hc : r.code = c
    · subst hc
      have hfail := exchange_fails_of_usedOrAbsent ga mint r.now s r.clientID
        r.codeVerifier r.redirectURI r.code h
      simp [hfail, ih _ hpres]
    · simp [hc, ih _ hpres]

theorem successes_le_one (ga : String → Except String Account)
    (mint : String → String → String → Except String TokenPair) (c : String) :
    ∀ (reqs : List ExchangeReq) (s : CodeState),
      successesFor c (runExchanges ga mint s reqs).2 ≤ 1 := by
  intro reqs
  induction reqs with
  | nil => intro s; simp [runExchanges, successesFor]
  | cons r rs ih =>
    intro s
    simp only [runExchanges]
    rw [successesFor_cons]
    by_cases hok : exchangeOk (ExchangeCodeForTokens ga mint r.now s r.code r.clientID
        r.codeVerifier r.redirectURI).2 = true
    · by_cases hc : r.code = c
      · subst hc
        have hclear := exchange_success_clears ga mint r.now s r.code r.clientID
          r.codeVerifier r.redirectURI hok
        have hz := successes_zero_of_usedOrAbsent ga mint r.code rs _ hclear
        simp [hok, hz]
      · have := ih (ExchangeCodeForTokens ga mint r.now s r.code r.clientID
          r.codeVerifier r.redirectURI).1
        simp [hc]
        omega
    · have hok' : exchangeOk (ExchangeCodeForTokens ga mint r.now s r.code r.clientID
        r.codeVerifier r.redirectURI).2 = false := by
        cases hcase : exchangeOk (ExchangeCodeForTokens ga mint r.now s r.code r.clientID
          r.codeVerifier r.redirectURI).2
        · rfl
        · exact absurd hcase hok
      have := ih (ExchangeCodeForTokens ga mint r.now s r.code r.clientID
        r.codeVerifier r.redirectURI).1
      simp [hok']
      omega

/-! ## C2 — at most one successful exchange per code -/

/-- C2: against any registry state and any behaviour of the injected
account-lookup and token-mint collaborators (each free to fail after the
used-flag flip), a code that is absent or whose used-flag is set never
satisfies an exchange, and over any sequential run of exchanges a given
code is successfully exchanged at most once. -/
theorem code_single_use (ga : String → Except String Account)
    (mint : String → String → String → Except String TokenPair)
    (s : CodeState) (reqs : List ExchangeReq) (c : String) :
    (usedOrAbsentB c s = true →
      successesFor c (runExchanges ga mint s reqs).2 = 0) ∧
    successesFor c (runExchanges ga mint s reqs).2 ≤ 1 :=
  ⟨fun h => successes_zero_of_usedOrAbsent ga mint c reqs s h,
   successes_le_one ga mint c reqs s⟩

/-- Witness for C2: a registry holding an already-used code, one exchange
attempt against it, evaluated concretely. -/
theorem code_single_use_witness :
    usedOrAbsentB "C"
      [("C", { Code := "C", ClientID := "c1", RedirectURI := "u", Scope := "",
               AccountID := "a1", CodeChallenge := "x", CodeChallengeMethod := "S256",
               ExpiresAt := 100, Used := true })] = true ∧
    successesFor "C"
      (runExchanges (fun _ => .error "nope") (fun _ _ _ => .error "nope")
        [("C", { Code := "C", ClientID := "c1", RedirectURI := "u", Scope := "",
                 AccountID := "a1", CodeChallenge := "x", CodeChallengeMethod := "S256",
                 ExpiresAt := 100, Used := true })]
        [{ now := 0, code := "C", clientID := "c1", codeVerifier := "v",
           redirectURI := "u" }]).2 = 0 ∧
    successesFor "C"
      (runExchanges (fun _ => .error "nope") (fun _ _ _ => .error "nope")
        [("C", { Code := "C", ClientID := "c1", RedirectURI := "u", Scope := "",
                 AccountID := "a1", CodeChallenge := "x", CodeChallengeMethod := "S256",
                 ExpiresAt := 100, Used := true })]
        [{ now := 0, code := "C", clientID := "c1", codeVerifier := "v",
           redirectURI := "u" }]).2 ≤ 1 :=
  ⟨by decide,
   (code_single_use (fun _ => .error "nope") (fun _ _ _ => .error "nope")
      [("C", { Code := "C", ClientID := "c1", RedirectURI := "u", Scope := "",
               AccountID := "a1", CodeChallenge := "x", CodeChallengeMethod := "S256",
               ExpiresAt := 100, Used := true })]
      [{ now := 0, code := "C", clientID := "c1", codeVerifier := "v",
         redirectURI := "u" }] "C").1 (by decide),
   (code_single_use (fun _ => .error "nope") (fun _ _ _ => .error "nope")
      [("C", { Code := "C", ClientID := "c1", RedirectURI := "u", Scope := "",
               AccountID := "a1", CodeChallenge := "x", CodeChallengeMethod := "S256",
               ExpiresAt := 100, Used := true })]
      [{ now := 0, code := "C", clientID := "c1", codeVerifier := "v",
         redirectURI := "u" }] "C").2⟩

/-! ## C1 — which exchange failures invalidate a code -/

/-- C1 counterexample: after an exchange of a valid code fails on PKCE
verification, the registry is unchanged — the record is still present with
its used-flag clear — and a second exchange of the very same code with the
correct verifier succeeds.  (The stored challenge is the RFC 7636 S256
challenge of the verifier used in the second exchange.) -/
theorem exchange_pkce_failure_leaves_code_valid :
    (ExchangeCodeForTokens
        (fun id => if id == "a1" then
          .ok { ID := "a1", Email := "a@x", Password := "h", Name := "A",
                Nickname := "A", Picture := "", CreatedAt := 0, UpdatedAt := 0,
                Verified := true, Blocked := false }
          else .error "account not found")
        (fun uid em nm => .ok (GenerateTokenPair "auth0-server" ["api"] 0 uid em nm))
        0
        [("CODE1", { Code := "CODE1", ClientID := "c1", RedirectURI := "https://x/cb",
                     Scope := "openid", AccountID := "a1",
                     CodeChallenge := "E9Melhoa2OwvFrEMTJguCHaoeK1t8URWbuGJSstw-cM",
                     CodeChallengeMethod := "S256", ExpiresAt := 1000, Used := false })]
        "CODE1" "c1" "wrong" "https://x/cb").2 = .error "PKCE validation failed" ∧
    (ExchangeCodeForTokens
        (fun id => if id == "a1" then
          .ok { ID := "a1", Email := "a@x", Password := "h", Name := "A",
                Nickname := "A", Picture := "", CreatedAt := 0, UpdatedAt := 0,
                Verified := true, Blocked := false }
          else .error "account not found")
        (fun uid em nm => .ok (GenerateTokenPair "auth0-server" ["api"] 0 uid em nm))
        0
        [("CODE1", { Code := "CODE1", ClientID := "c1", RedirectURI := "https://x/cb",
                     Scope := "openid", AccountID := "a1",
                     CodeChallenge := "E9Melhoa2OwvFrEMTJguCHaoeK1t8URWbuGJSstw-cM",
                     CodeChallengeMethod := "S256", ExpiresAt := 1000, Used := false })]
        "CODE1" "c1" "wrong" "https://x/cb").1 =
      [("CODE1", { Code := "CODE1", ClientID := "c1", RedirectURI := "https://x/cb",
                   Scope := "openid", AccountID := "a1",
                   CodeChallenge := "E9Melhoa2OwvFrEMTJguCHaoeK1t8URWbuGJSstw-cM",
                   CodeChallengeMethod := "S256", ExpiresAt := 1000, Used := false })] ∧
    exchangeOk
      (ExchangeCodeForTokens
        (fun id => if id == "a1" then
          .ok { ID := "a1", Email := "a@x", Password := "h", Name := "A",
                Nickname := "A", Picture := "", CreatedAt := 0, UpdatedAt := 0,
                Verified := true, Blocked := false }
          else .error "account not found")
        (fun uid em nm => .ok (GenerateTokenPair "auth0-server" ["api"] 0 uid em nm))
        0
        [("CODE1", { Code := "CODE1", ClientID := "c1", RedirectURI := "https://x/cb",
                     Scope := "openid", AccountID := "a1",
                     CodeChallenge := "E9Melhoa2OwvFrEMTJguCHaoeK1t8URWbuGJSstw-cM",
                     CodeChallengeMethod := "S256", ExpiresAt := 1000, Used := false })]
        "CODE1" "c1" "dBjftJeZ4CVP-mB92K27uhbUJU1p1r_wW1gFWFOEjXk" "https://x/cb").2 =
      true := by
  refine ⟨rfl, rfl, rfl⟩

/-- C1 (amended): with the code present in the registry, an exchange
removes the record exactly on the expiry and prior-use failures; a
client-id mismatch, redirect-URI mismatch or PKCE verification failure
returns an error but leaves the registry unchanged, the record still
present with its used-flag clear — such a failure does not invalidate the
code for future exchanges. -/
theorem exchange_failure_deletion (ga : String → Except String Account)
    (mint : String → String → String → Except String TokenPair) (now : Int)
    (s : CodeState) (code cid cv ru : String) (r : AuthorizationCode)
    (hl : lookupCode s code = some r) :
    (now > r.ExpiresAt →
      ExchangeCodeForTokens ga mint now s code cid cv ru =
        (deleteCode s code, .error "authorization code expired")) ∧
    (¬ now > r.ExpiresAt → r.Used = true →
      ExchangeCodeForTokens ga mint now s code cid cv ru =
        (deleteCode s code, .error "authorization code already used")) ∧
    (¬ now > r.ExpiresAt → r.Used = false →
      (r.ClientID ≠ cid ∨ r.RedirectURI ≠ ru ∨
        validatePKCE r.CodeChallenge cv r.CodeChallengeMethod = false) →
      (ExchangeCodeForTokens ga mint now s code cid cv ru).1 = s ∧
      exchangeOk (ExchangeCodeForTokens ga mint now s code cid cv ru).2 = false) := by
  refine ⟨fun h1 => ?_, fun h1 h2 => ?_, fun h1 h2 hbad => ?_⟩
  · unfold ExchangeCodeForTokens
    simp [hl, h1]
  · unfold ExchangeCodeForTokens
    simp [hl, h1, h2]
  · unfold ExchangeCodeForTokens
    rcases hbad with h3 | h4 | h5
    · simp [hl, h1, h2, h3, exchangeOk]
    · by_cases h3 : r.ClientID = cid
      · simp [hl, h1, h2, h3, h4, exchangeOk]
      · simp [hl, h1, h2, h3, exchangeOk]
    · by_cases h3 : r.ClientID = cid
      · by_cases h4 : r.RedirectURI = ru
        · simp [hl, h1, h2, h3, h4, h5, exchangeOk]
        · simp [hl, h1, h2, h3, h4, exchangeOk]
      · simp [hl, h1, h2, h3, exchangeOk]

/-- Witness for C1 (amended): the expiry branch, evaluated concretely. -/
theorem exchange_failure_deletion_witness :
    lookupCode
      [("C", { Code := "C", ClientID := "c1", RedirectURI := "u", Scope := "",
               AccountID := "a1", CodeChallenge := "x", CodeChallengeMethod := "S256",
               ExpiresAt := 5, Used := false })] "C" =
      some { Code := "C", ClientID := "c1", RedirectURI := "u", Scope := "",
             AccountID := "a1", CodeChallenge := "x", CodeChallengeMethod := "S256",
             ExpiresAt := 5, Used := false } ∧
    (10 : Int) > 5 ∧
    ExchangeCodeForTokens (fun _ => .error "e") (fun _ _ _ => .error "e") 10
      [("C", { Code := "C", ClientID := "c1", RedirectURI := "u", Scope := "",
               AccountID := "a1", CodeChallenge := "x", CodeChallengeMethod := "S256",
               ExpiresAt := 5, Used := false })] "C" "c1" "v" "u" =
      (deleteCode
        [("C", { Code := "C", ClientID := "c1", RedirectURI := "u", Scope := "",
                 AccountID := "a1", CodeChallenge := "x", CodeChallengeMethod := "S256",
                 ExpiresAt := 5, Used := false })] "C",
       .error "authorization code expired") :=
  ⟨by decide, by decide,
   (exchange_failure_deletion (fun _ => .error "e") (fun _ _ _ => .error "e") 10
      [("C", { Code := "C", ClientID := "c1", RedirectURI := "u", Scope := "",
               AccountID := "a1", CodeChallenge := "x", CodeChallengeMethod := "S256",
               ExpiresAt := 5, Used := false })] "C" "c1" "v" "u"
      { Code := "C", ClientID := "c1", RedirectURI := "u", Scope := "",
        AccountID := "a1", CodeChallenge := "x", CodeChallengeMethod := "S256",
        ExpiresAt := 5, Used := false } (by decide)).1 (by decide)⟩

end OAuthServer
